import Mathlib

/-!
Verification of the stage-based job-queue core of the girlsChannel pipeline.

The job record store is modelled as a list of rows.  Each row carries the
queue-control columns the core reads and writes (`check_create`, that is the
stage counter, `folder_name`, `last_error`, `updated_at`) together with the
business columns the core must leave untouched (`post_date`, used only for
ordering new work, `comments_count`, and an opaque `extra` association list
standing for every other business column).

SQL statements are embedded as list transformations: an `UPDATE ... WHERE p`
is a map that rewrites exactly the rows satisfying `p`; a
`SELECT ... ORDER BY k LIMIT 1` is a fold picking the best row under the
strict order induced by `k`; timestamps (`now_jst_str()`) are threaded as an
explicit `now : String` argument.
-/

/-- One row of the `items` table: queue-control columns plus opaque business
columns that the core must preserve. -/
structure Row where
  id : Int
  check_create : Int
  folder_name : Option String
  last_error : Option String
  updated_at : Option String
  post_date : String
  comments_count : Int
  extra : List (String × String)
deriving Repr, DecidableEq

/-- The `items` table. -/
abbrev Table := List Row

/-- The common `SET check_create = ?, last_error = ?, updated_at = ?` clause
shared by every stage-mutating UPDATE the core issues. -/
def setStage (cc : Int) (le : Option String) (now : String) (r : Row) : Row :=
  { r with check_create := cc, last_error := le, updated_at := some now }

/-- Embedding of `UPDATE items SET ... WHERE p`: rewrite exactly the rows satisfying
`p`, leaving the rest byte-for-byte unchanged. -/
def updateWhere (p : Row → Bool) (f : Row → Row) (t : Table) : Table :=
  (t : List Row).map fun r => if p r then f r else r

/-- Model of `update_item` from the launcher: unconditional (id-keyed) write of stage,
error text and timestamp, followed by commit. -/
def update_item (t : Table) (itemId : Int) (cc : Int) (le : Option String)
    (now : String) : Table :=
  updateWhere (fun r => r.id == itemId) (setStage cc le now) t

theorem updateWhere_length (p : Row → Bool) (f : Row → Row) (t : Table) :
    (updateWhere p f t : List Row).length = (t : List Row).length :=
  List.length_map _ _

theorem updateWhere_zip_cases (p : Row → Bool) (f : Row → Row) :
    ∀ t : Table, ∀ pr ∈ (t : List Row).zip (updateWhere p f t : List Row),
      (p pr.1 = true ∧ pr.2 = f pr.1) ∨ (p pr.1 = false ∧ pr.2 = pr.1) := by
  intro t
  induction t with
  | nil => intro pr h; cases h
  | cons r rs ih =>
      intro pr h
      simp only [updateWhere, List.map_cons, List.zip_cons_cons, List.mem_cons] at h
      rcases h with h | h
      · subst h
        by_cases hp : p r = true
        · exact Or.inl ⟨hp, by simp [hp]⟩
        · exact Or.inr ⟨by simpa using hp, by simp [hp]⟩
      · exact ih pr h

/-! ## Stage Guard (`guard_unique_stage`) -/

/-- Descending insertion used to embed `ORDER BY id DESC`. -/
def insertDesc (x : Int) : List Int → List Int
  | [] => [x]
  | y :: ys => if y < x then x :: y :: ys else y :: insertDesc x ys

/-- Sort a list of ids in descending order (`ORDER BY id DESC`). -/
def sortDesc : List Int → List Int
  | [] => []
  | x :: xs => insertDesc x (sortDesc xs)

theorem length_insertDesc (x : Int) : ∀ l : List Int,
    (insertDesc x l).length = l.length + 1 := by
  intro l
  induction l with
  | nil => rfl
  | cons y ys ih =>
      by_cases h : y < x
      · simp [insertDesc, h]
      · simp [insertDesc, h, ih]

theorem length_sortDesc : ∀ l : List Int, (sortDesc l).length = l.length := by
  intro l
  induction l with
  | nil => rfl
  | cons x xs ih => simp [sortDesc, length_insertDesc, ih]

/-- The guard's bounded scan:
`SELECT id FROM items WHERE check_create=? ORDER BY id DESC LIMIT 50`. -/
def guardScanIds (t : Table) (stage : Int) : List Int :=
  (sortDesc ((t.filter fun r => r.check_create == stage).map (·.id))).take 50

/-- The `RuntimeError` raised by `guard_unique_stage`, carrying the stage it
checked and the scanned ids its message names (joined with commas). -/
structure GuardError where
  stage : Int
  ids : List Int
deriving Repr, DecidableEq

/-- Model of `guard_unique_stage(con, stage)`: run the bounded scan and raise unless it
found exactly one row.  The function issues only a SELECT, so the table it
leaves behind is returned unchanged by construction. -/
def guard_unique_stage (t : Table) (stage : Int) :
    Except GuardError Unit × Table :=
  let ids := guardScanIds t stage
  if ids.length == 1 then (.ok (), t) else (.error ⟨stage, ids⟩, t)

/-! ## `queue_db.py`: `mark_done`, `mark_fail` -/

/-- The error raised when `mark_done`'s conditional update reports
`rowcount == 0`. -/
inductive MarkDoneErr
  | rowcountZero (itemId : Int) (staExpected : Int)
deriving Repr, DecidableEq

/-- Model of `mark_done(con, table, item_id, sta_expected, end_value)`: conditional
STA→END update (`WHERE id = ? AND check_create = ?`), commit, then raise if
the update affected zero rows.  Returns the table after the call together
with the raised error, if any. -/
def mark_done (t : Table) (itemId staExpected endValue : Int) (now : String) :
    Table × Option MarkDoneErr :=
  let p : Row → Bool := fun r => r.id == itemId && r.check_create == staExpected
  let affected := (t.filter p).length
  let t2 := updateWhere p (setStage endValue none now) t
  (t2, if affected == 0 then some (.rowcountZero itemId staExpected) else none)

/-- Embedding of Python slicing `err[:2000]`: the first 2000 characters. -/
def pyTruncate (s : String) (n : Nat) : String := String.mk (s.data.take n)

/-- Model of `mark_fail(con, table, item_id, sta_value, err)`: unconditional (id-keyed)
write of the stage and the truncated error text; no compare-and-swap on the
row's current stage. -/
def mark_fail (t : Table) (itemId staValue : Int) (err : String)
    (now : String) : Table :=
  updateWhere (fun r => r.id == itemId)
    (setStage staValue (some (pyTruncate err 2000)) now) t

/-! ## Schema Evolver (`ensure_columns` / `ensure_common_columns`) -/

/-- The store's schema, as the core observes it: the set of column names of
the `items` table (read via `PRAGMA table_info`) and the set of index names. -/
structure Schema where
  cols : List String
  indexes : List String
deriving Repr, DecidableEq

/-- Embedding of `ALTER TABLE items ADD COLUMN c ...` guarded by a
membership test on the columns read at the start
(with any error from the ALTER swallowed). -/
def addColIfMissing (s : Schema) (c : String) : Schema :=
  if c ∈ s.cols then s else { s with cols := s.cols ++ [c] }

/-- Embedding of `CREATE INDEX IF NOT EXISTS name ...` (errors swallowed). -/
def addIndexIfMissing (s : Schema) (name : String) : Schema :=
  if name ∈ s.indexes then s else { s with indexes := s.indexes ++ [name] }

/-- The queue-control columns `ensure_columns` adds when missing, in source
order. -/
def requiredColumns : List String :=
  ["check_create", "folder_name", "last_error", "updated_at",
   "video_created", "video_created_at", "video_uploaded", "video_uploaded_at"]

/-- Model of `ensure_columns(con)` / `ensure_common_columns(con, table)`: add each
missing queue-control column, then optionally the pick index, then commit.
Nothing is ever dropped or renamed. -/
def ensure_columns (enableIdx : Bool) (idxName : String) (s : Schema) : Schema :=
  let s2 := requiredColumns.foldl addColIfMissing s
  if enableIdx then addIndexIfMissing s2 idxName else s2

/-! ## `SELECT ... ORDER BY ... LIMIT 1` -/

/-- Embedding of `SELECT * ... ORDER BY k LIMIT 1` over a filtered candidate list:
fold keeping the row that comes strictly earlier in the configured order
(`better a b` means `a` sorts strictly before `b`). -/
def selectTop (better : Row → Row → Bool) : List Row → Option Row
  | [] => none
  | r :: rs => some (rs.foldl (fun best x => if better x best then x else best) r)

theorem selectTop_none_iff (better : Row → Row → Bool) (l : List Row) :
    selectTop better l = none ↔ l = [] := by
  cases l <;> simp [selectTop]

theorem foldl_pick_mem (better : Row → Row → Bool) :
    ∀ (l : List Row) (a : Row),
      l.foldl (fun best x => if better x best then x else best) a = a ∨
      l.foldl (fun best x => if better x best then x else best) a ∈ l := by
  intro l
  induction l with
  | nil => intro a; exact Or.inl rfl
  | cons x xs ih =>
      intro a
      simp only [List.foldl_cons]
      by_cases h : better x a = true
      · simp only [h, if_pos rfl]
        rcases ih x with h2 | h2
        · exact Or.inr (by simp [h2])
        · exact Or.inr (List.mem_cons_of_mem _ h2)
      · simp only [if_neg h]
        rcases ih a with h2 | h2
        · exact Or.inl h2
        · exact Or.inr (List.mem_cons_of_mem _ h2)

theorem selectTop_mem (better : Row → Row → Bool) (l : List Row) (r : Row)
    (h : selectTop better l = some r) : r ∈ l := by
  cases l with
  | nil => cases h
  | cons x xs =>
      simp only [selectTop, Option.some.injEq] at h
      subst h
      rcases foldl_pick_mem better xs x with h2 | h2
      · rw [h2]; exact List.mem_cons_self x xs
      · exact List.mem_cons_of_mem _ h2

theorem foldl_pick_optimal (better : Row → Row → Bool)
    (htrans : ∀ a b c, better a b = true → better b c = true → better a c = true)
    (hneg : ∀ a b c, better a b = false → better b c = false → better a c = false)
    (hirr : ∀ a, better a a = false) :
    ∀ (l : List Row) (a : Row) (y : Row), y = a ∨ y ∈ l →
      better y (l.foldl (fun best x => if better x best then x else best) a) = false := by
  intro l
  induction l with
  | nil =>
      intro a y hy
      rcases hy with rfl | hy
      · exact hirr y
      · cases hy
  | cons x xs ih =>
      intro a y hy
      simp only [List.foldl_cons]
      by_cases h : better x a = true
      · rw [if_pos h]
        have hx : better x (xs.foldl (fun best z => if better z best then z else best) x) = false :=
          ih x x (Or.inl rfl)
        rcases hy with rfl | hy
        · cases hbv : better y (xs.foldl (fun best z => if better z best then z else best) x) with
          | false => rfl
          | true => exact absurd (htrans x y _ h hbv) (by simp [hx])
        · rcases List.mem_cons.mp hy with h3 | h3
          · exact h3 ▸ hx
          · exact ih x y (Or.inr h3)
      · have hf : better x a = false := by simpa using h
        rw [if_neg h]
        have ha : better a (xs.foldl (fun best z => if better z best then z else best) a) = false :=
          ih a a (Or.inl rfl)
        rcases hy with rfl | hy
        · exact ha
        · rcases List.mem_cons.mp hy with h3 | h3
          · exact h3 ▸ hneg x a _ hf ha
          · exact ih a y (Or.inr h3)

theorem selectTop_optimal (better : Row → Row → Bool)
    (htrans : ∀ a b c, better a b = true → better b c = true → better a c = true)
    (hneg : ∀ a b c, better a b = false → better b c = false → better a c = false)
    (hirr : ∀ a, better a a = false)
    (l : List Row) (r : Row) (h : selectTop better l = some r) :
    ∀ y ∈ l, better y r = false := by
  cases l with
  | nil => cases h
  | cons x xs =>
      simp only [selectTop, Option.some.injEq] at h
      intro y hy
      subst h
      rcases List.mem_cons.mp hy with h3 | h3
      · exact foldl_pick_optimal better htrans hneg hirr xs x y (Or.inl h3)
      · exact foldl_pick_optimal better htrans hneg hirr xs x y (Or.inr h3)

/-- Strict "sorts strictly earlier than" order induced by a sort key. -/
def keyBetter {κ : Type} [LinearOrder κ] (key : Row → κ) (a b : Row) : Bool :=
  decide (key a < key b)

theorem keyBetter_trans {κ : Type} [LinearOrder κ] (key : Row → κ) :
    ∀ a b c, keyBetter key a b = true → keyBetter key b c = true →
      keyBetter key a c = true := by
  intro a b c h1 h2
  exact decide_eq_true (lt_trans (of_decide_eq_true h1) (of_decide_eq_true h2))

theorem keyBetter_neg {κ : Type} [LinearOrder κ] (key : Row → κ) :
    ∀ a b c, keyBetter key a b = false → keyBetter key b c = false →
      keyBetter key a c = false := by
  intro a b c h1 h2
  have hba : key b ≤ key a := not_lt.mp (of_decide_eq_false h1)
  have hcb : key c ≤ key b := not_lt.mp (of_decide_eq_false h2)
  exact decide_eq_false (not_lt.mpr (le_trans hcb hba))

theorem keyBetter_irrefl {κ : Type} [LinearOrder κ] (key : Row → κ) :
    ∀ a, keyBetter key a a = false :=
  fun a => decide_eq_false (lt_irrefl (key a))

/-! ## Claim Protocol (`lock_new_job_atomic`) -/

/-- The sort key of `PICK_NEW_ORDER_SQL = "post_date DESC, id DESC"`:
lexicographic on dual `post_date`, then dual `id`. -/
def newKey (r : Row) : (String)ᵒᵈ ×ₗ (Int)ᵒᵈ :=
  toLex (OrderDual.toDual r.post_date, OrderDual.toDual r.id)

/-- Row `a` sorts strictly before `b` under `ORDER BY post_date DESC, id DESC`. -/
def betterNew (a b : Row) : Bool := keyBetter newKey a b

/-- The claim's committed UPDATE:
`SET check_create = STA_02, last_error = NULL, updated_at = ? WHERE id = ?
AND check_create = 0` (the compare-and-swap predicate). -/
def applyClaimUpdate (sta02 : Int) (now : String) (itemId : Int)
    (t : Table) : Table :=
  updateWhere (fun r => r.id == itemId && r.check_create == 0)
    (setStage sta02 none now) t

/-- Result of `lock_new_job_atomic`: the returned row (None = "no work"),
the table after the transaction, and `con.total_changes` afterwards. -/
structure ClaimResult where
  picked : Option Row
  table : Table
  totalChanges : Nat
deriving Repr, DecidableEq

/-- Model of `lock_new_job_atomic(con)`.  Argument `tc` is `con.total_changes` when the call
starts (cumulative row changes of the whole connection).  To expose the race
window the defensive check targets, the SELECT reads snapshot `tSel` while
the UPDATE and re-read run against `tUpd`; a strictly serial execution passes
the same table for both.  Paths returning `picked = none` roll back, so they
leave `tUpd` untouched; the commit path applies the conditional update and
re-reads the row by id. -/
def lock_new_job_atomic (sta02 : Int) (now : String) (tc : Nat)
    (tSel tUpd : Table) : ClaimResult :=
  match selectTop betterNew (tSel.filter fun r => r.check_create == 0) with
  | none => ⟨none, tUpd, tc⟩
  | some row =>
      let itemId := row.id
      let affected :=
        (tUpd.filter fun r => r.id == itemId && r.check_create == 0).length
      let tc2 := tc + affected
      if tc2 == 0 then ⟨none, tUpd, tc⟩
      else
        let t2 := applyClaimUpdate sta02 now itemId tUpd
        ⟨(t2.filter fun r => r.id == itemId).head?, t2, tc2⟩

/-! ## Pipeline Driver selection (`pick_inprogress_job`) -/

/-- The `CASE check_create WHEN STA_02 THEN 1 ... ELSE 99 END` ordering
table: position of a stage value in the configured pipeline order. -/
def stagePos (staList : List Int) (v : Int) : Nat :=
  match staList.indexOf? v with
  | some i => i + 1
  | none => 99

/-- Sort key of the in-progress query: stage position ascending, id
descending. -/
def inprogressKey (staList : List Int) (r : Row) : Nat ×ₗ (Int)ᵒᵈ :=
  toLex (stagePos staList r.check_create, OrderDual.toDual r.id)

/-- Row `a` sorts strictly before `b` in the in-progress query. -/
def betterInprogress (staList : List Int) (a b : Row) : Bool :=
  keyBetter (inprogressKey staList) a b

/-- Model of `pick_inprogress_job(con)`:
`SELECT * WHERE check_create IN (STA_02,...,STA_99) ORDER BY CASE ... ASC,
id DESC LIMIT 1`. -/
def pick_inprogress_job (staList : List Int) (t : Table) : Option Row :=
  selectTop (betterInprogress staList)
    (t.filter fun r => staList.contains r.check_create)

/-- The selection step of `process_one_item`: resume in-progress work first,
and only when that finds nothing attempt the atomic claim of a stage-0 row
(serial execution: the claim's SELECT and UPDATE see the same table). -/
def driver_select (staList : List Int) (sta02 : Int) (now : String)
    (tc : Nat) (t : Table) : Option Row × Table :=
  match pick_inprogress_job staList t with
  | some r => (some r, t)
  | none =>
      let c := lock_new_job_atomic sta02 now tc t t
      (c.picked, c.table)

/-! ## Driver stage-02 block of `process_one_item` -/

/-- A Python exception as the launcher records it: class name and message
(`f"02 failed: \x7btype(e).__name__\x7d: \x7be\x7d"`). -/
structure Exc where
  name : String
  msg : String
deriving Repr, DecidableEq

/-- Render an exception the way the except-block formats it. -/
def excText (e : Exc) : String := e.name ++ ": " ++ e.msg

/-- The `RuntimeError` built from a failed stage guard. -/
def guardExc (g : GuardError) : Exc :=
  ⟨"RuntimeError",
    "check_create=" ++ toString g.stage ++ " が " ++ toString g.ids.length ++
    "件あります。この状態だと次工程が別IDを拾う可能性があるので停止します。 ids=" ++
    String.intercalate "," (g.ids.map toString)⟩

/-- Model of `fetch_status(con, item_id)`: the stage and the folder name
(empty when NULL) of the row with the given id, `(-999, "")` when no row matches. -/
def fetch_status (t : Table) (itemId : Int) : Int × String :=
  match (t.filter fun r => r.id == itemId).head? with
  | none => (-999, "")
  | some r => (r.check_create, r.folder_name.getD "")

/-- Model of `require_stage(con, item_id, expected, label)`: return the folder name,
raising `RuntimeError` when the observed stage differs from `expected`. -/
def require_stage (t : Table) (itemId : Int) (expected : Int)
    (label : String) : Except Exc String :=
  let st := (fetch_status t itemId).1
  let folder := (fetch_status t itemId).2
  if st = expected then .ok folder
  else .error ⟨"RuntimeError",
    label ++ ": expected check_create=" ++ toString expected ++ " but got " ++
    toString st ++ " (id=" ++ toString itemId ++ ")"⟩

/-- Behaviour of `run_script_realtime(SCRIPT_02, ...)` plus the handler's own
writes: the external stage handler receives the store and returns the store
it leaves behind, together with the exception the launcher observes when the
subprocess exits non-zero, times out, or the script is missing. -/
def HandlerRun : Type := Table → Table × Option Exc

/-- The body of the stage-02 `try:` block: guard, pre-condition, handler run,
post-condition, and the non-empty `folder_name` payload check.  An `err`
outcome carries the exception together with the store state at the moment it
was raised. -/
inductive TryOutcome
  | ok (t : Table)
  | err (e : Exc) (t : Table)
deriving Repr, DecidableEq

def stage02_attempt (sta02 end02 : Int) (itemId : Int) (handler : HandlerRun)
    (t : Table) : TryOutcome :=
  match (guard_unique_stage t sta02).1 with
  | .error g => .err (guardExc g) t
  | .ok _ =>
    match require_stage t itemId sta02 "before 02" with
    | .error e => .err e t
    | .ok _ =>
      match handler t with
      | (t2, some e) => .err e t2
      | (t2, none) =>
        match require_stage t2 itemId end02 "after 02" with
        | .error e => .err e t2
        | .ok folder =>
          if folder.trim = "" then
            .err ⟨"RuntimeError", "after 02: folder_name is empty"⟩ t2
          else .ok t2

/-- Outcome of one stage block of `process_one_item`: either the driver
proceeds with the advanced stage value, or it has written the failure back to
the store and returns exit code 1 to its caller. -/
inductive StepResult
  | progressed (t : Table) (st : Int)
  | failed (t : Table)
deriving Repr, DecidableEq

/-- The stage-02 block of `process_one_item`, including its `except` clause:
on any failure, write `check_create` back to `STA_02` (or to `0` when
`RESET_TO_ZERO_ON_FAIL_02` is set), record `last_error = "02 failed: ..."`,
and return the failure code instead of propagating. -/
def stage02_block (reset02 : Bool) (sta02 end02 : Int) (now : String)
    (itemId : Int) (handler : HandlerRun) (t : Table) : StepResult :=
  match stage02_attempt sta02 end02 itemId handler t with
  | .ok t2 => .progressed t2 end02
  | .err e t2 =>
      let errStr := "02 failed: " ++ excText e
      let target : Int := if reset02 then 0 else sta02
      .failed (update_item t2 itemId target (some errStr) now)

/-! ## Store-contention retry (`update_stage_success` / `update_stage_error`) -/

/-- Constant `LOCK_RETRY_MAX` (env default 25). -/
def LOCK_RETRY_MAX : Nat := 25

/-- Constant `LOCK_RETRY_SLEEP_SEC` (env default 0.8 seconds). -/
def LOCK_RETRY_SLEEP_SEC : ℚ := 4 / 5

/-- One attempt of the retried transaction body: either it commits, or it
raises `sqlite3.OperationalError` with the given message. -/
inductive AttemptResult
  | ok
  | opErr (msg : String)
deriving Repr, DecidableEq

/-- Does `pat` occur at the head of `l`? -/
def startsWithSeq : List Char → List Char → Bool
  | [], _ => true
  | _ :: _, [] => false
  | p :: ps, c :: cs => p == c && startsWithSeq ps cs

/-- Does `pat` occur anywhere inside `l` (Python's `in` on strings)? -/
def hasSubSeq (pat : List Char) : List Char → Bool
  | [] => startsWithSeq pat []
  | c :: cs => startsWithSeq pat (c :: cs) || hasSubSeq pat cs

/-- Test for "locked" occurring in the lowercased message: the
classification deciding whether an
`OperationalError` is retried. -/
def isLockedMsg (s : String) : Bool :=
  hasSubSeq "locked".data (s.data.map Char.toLower)

/-- Attempts executed so far and the sleeps taken between them. -/
structure RetryTrace where
  attempts : Nat
  sleeps : List ℚ
deriving Repr, DecidableEq

/-- How a retry-wrapped mutation ends. -/
inductive RetryOutcome
  | success (tr : RetryTrace)
  | contentionExceeded (finalMsg : String) (tr : RetryTrace)
  | reraised (msg : String) (tr : RetryTrace)
deriving Repr, DecidableEq

/-- The `for attempt in range(1, LOCK_RETRY_MAX + 1)` loop shared by
`update_stage_success` and `update_stage_error`: run the body; on a "locked"
`OperationalError` roll back, sleep `LOCK_RETRY_SLEEP_SEC`, and retry; on any
other `OperationalError` roll back and re-raise; when the budget is spent,
raise the terminal "retry exceeded" error.  `op n` is the result of the
body's execution number `n` (0-based). -/
def runRetry (op : Nat → AttemptResult) (sleepSec : ℚ) (finalMsg : String) :
    Nat → RetryTrace → RetryOutcome
  | 0, tr => .contentionExceeded finalMsg tr
  | fuel + 1, tr =>
      match op tr.attempts with
      | .ok => .success ⟨tr.attempts + 1, tr.sleeps⟩
      | .opErr m =>
          if isLockedMsg m then
            runRetry op sleepSec finalMsg fuel
              ⟨tr.attempts + 1, tr.sleeps ++ [sleepSec]⟩
          else .reraised m ⟨tr.attempts + 1, tr.sleeps⟩

/-- The retry wrapper of `update_stage_success` (its transaction body — the
conditional STA→END update — abstracted as `op`). -/
def update_stage_success_retry (op : Nat → AttemptResult) : RetryOutcome :=
  runRetry op LOCK_RETRY_SLEEP_SEC
    "database is locked (retry exceeded) on update_success" LOCK_RETRY_MAX ⟨0, []⟩

/-- The retry wrapper of `update_stage_error`. -/
def update_stage_error_retry (op : Nat → AttemptResult) : RetryOutcome :=
  runRetry op LOCK_RETRY_SLEEP_SEC
    "database is locked (retry exceeded) on update_error" LOCK_RETRY_MAX ⟨0, []⟩

/-! ## Concrete fixtures used by witnesses -/

/-- A row sitting at stage 3. -/
def rowA : Row := ⟨1, 3, none, none, none, "2026-01-01", 0, []⟩

/-- A fresh stage-0 row, as the claim's SELECT sees it. -/
def rowSel : Row := ⟨1, 0, none, none, none, "2026-01-01", 0, []⟩

/-- The same row after a concurrent claimant advanced it to stage 1. -/
def rowUpd : Row := ⟨1, 1, none, none, none, "2026-01-01", 0, []⟩

/-- A row awaiting the stage-02 handler (stage 1). -/
def rowB : Row := ⟨1, 1, none, none, none, "2026-01-01", 0, []⟩

/-- A second row, already at stage 2. -/
def rowC : Row := ⟨2, 2, none, none, none, "2026-01-02", 0, []⟩

/-- A stage-02 handler run that fails with a non-zero exit status. -/
def failingHandler : HandlerRun :=
  fun t => (t, some ⟨"RuntimeError", "02_データ取得.py failed (exit=1)"⟩)

/-! ## Helper lemmas -/

theorem zip_self_eq : ∀ t : List Row, ∀ pr ∈ t.zip t, pr.2 = pr.1 := by
  intro t
  induction t with
  | nil => intro pr h; cases h
  | cons r rs ih =>
      intro pr h
      rcases List.mem_cons.mp (by simpa [List.zip_cons_cons] using h) with h2 | h2
      · rw [h2]
      · exact ih pr h2

theorem updateWhere_eq_self (p : Row → Bool) (f : Row → Row) :
    ∀ t : Table, (∀ r ∈ t, p r = false) → updateWhere p f t = t := by
  intro t
  induction t with
  | nil => intro _; rfl
  | cons r rs ih =>
      intro h
      have hr := h r (List.mem_cons_self r rs)
      simp only [updateWhere, List.map_cons] at *
      rw [if_neg (by simp [hr]), ih (fun x hx => h x (List.mem_cons_of_mem _ hx))]

theorem updateWhere_setStage_stamps (p : Row → Bool) (cc : Int)
    (le : Option String) (now : String) (t : Table) :
    ∀ pr ∈ t.zip (updateWhere p (setStage cc le now) t),
      pr.2.check_create ≠ pr.1.check_create → pr.2.updated_at = some now := by
  intro pr h hch
  rcases updateWhere_zip_cases p (setStage cc le now) t pr h with ⟨_, h2⟩ | ⟨_, h2⟩
  · rw [h2]; rfl
  · rw [h2] at hch; exact absurd rfl hch

theorem updateWhere_setStage_frame (p : Row → Bool) (cc : Int)
    (le : Option String) (now : String) (t : Table) :
    ∀ pr ∈ t.zip (updateWhere p (setStage cc le now) t),
      pr.2.id = pr.1.id ∧ pr.2.folder_name = pr.1.folder_name ∧
      pr.2.post_date = pr.1.post_date ∧
      pr.2.comments_count = pr.1.comments_count ∧
      pr.2.extra = pr.1.extra ∧ (p pr.1 = false → pr.2 = pr.1) := by
  intro pr h
  rcases updateWhere_zip_cases p (setStage cc le now) t pr h with ⟨hp, h2⟩ | ⟨hp, h2⟩
  · rw [h2]
    exact ⟨rfl, rfl, rfl, rfl, rfl, fun hf => absurd hp (by simp [hf])⟩
  · rw [h2]
    exact ⟨rfl, rfl, rfl, rfl, rfl, fun _ => rfl⟩

/-! ## Claim theorems -/

/-- C10: `mark_fail` stores at most the first 2000 characters of the error
string (exactly `err[:2000]`) in `last_error`, and sets the matched row's
`check_create` to `sta_value` unconditionally — the `WHERE` clause matches on
`id` only, so every prior stage value of the row ends at `sta_value`; rows
with a different id are untouched. -/
theorem mark_fail_unconditional (t : Table) (itemId staValue : Int)
    (err now : String) :
    (pyTruncate err 2000).data = err.data.take 2000 ∧
    (pyTruncate err 2000).length ≤ 2000 ∧
    (∀ pr ∈ t.zip (mark_fail t itemId staValue err now),
      (pr.1.id = itemId →
        pr.2.check_create = staValue ∧
        pr.2.last_error = some (pyTruncate err 2000) ∧
        pr.2.updated_at = some now) ∧
      (pr.1.id ≠ itemId → pr.2 = pr.1)) := by
  refine ⟨rfl, ?_, ?_⟩
  · show (err.data.take 2000).length ≤ 2000
    simp [List.length_take_le]
  · intro pr h
    constructor
    · intro hid
      rcases updateWhere_zip_cases _ _ t pr h with ⟨_, h2⟩ | ⟨hp, _⟩
      · rw [h2]; exact ⟨rfl, rfl, rfl⟩
      · exact absurd hp (by simp [hid])
    · intro hid
      rcases updateWhere_zip_cases _ _ t pr h with ⟨hp, _⟩ | ⟨_, h2⟩
      · exact absurd (by simpa using hp) hid
      · exact h2

/-- Witness for C10 at a concrete one-row store. -/
theorem mark_fail_unconditional_witness :
    (setStage 7 (some (pyTruncate "boom" 2000)) "T" rowA).check_create = 7 ∧
    (setStage 7 (some (pyTruncate "boom" 2000)) "T" rowA).last_error
      = some (pyTruncate "boom" 2000) ∧
    (setStage 7 (some (pyTruncate "boom" 2000)) "T" rowA).updated_at = some "T" :=
  ((mark_fail_unconditional [rowA] 1 7 "boom" "T").2.2
    (rowA, setStage 7 (some (pyTruncate "boom" 2000)) "T" rowA)
    (by decide)).1 (by decide)

/-- C9: `mark_done` raises exactly when its conditional update (`WHERE id = ?
AND check_create = sta_expected`) affects zero rows — the row is missing or
its stage differs — and in that case the table is unchanged; on success every
matching row gets `check_create = end_value` with `last_error` cleared, and
all other rows are untouched. -/
theorem mark_done_conditional (t : Table) (itemId staExp endVal : Int)
    (now : String) :
    ((mark_done t itemId staExp endVal now).2.isSome = true ↔
      ∀ r ∈ t, ¬(r.id = itemId ∧ r.check_create = staExp)) ∧
    ((mark_done t itemId staExp endVal now).2.isSome = true →
      (mark_done t itemId staExp endVal now).1 = t) ∧
    (∀ pr ∈ t.zip (mark_done t itemId staExp endVal now).1,
      (pr.1.id = itemId ∧ pr.1.check_create = staExp →
        pr.2.check_create = endVal ∧ pr.2.last_error = none ∧
        pr.2.updated_at = some now) ∧
      (¬(pr.1.id = itemId ∧ pr.1.check_create = staExp) → pr.2 = pr.1)) := by
  have hbeq : ∀ r : Row,
      ((r.id == itemId && r.check_create == staExp) = true) ↔
      (r.id = itemId ∧ r.check_create = staExp) := by
    intro r
    simp
  have hiff : (mark_done t itemId staExp endVal now).2.isSome = true ↔
      ∀ r ∈ t, ¬(r.id = itemId ∧ r.check_create = staExp) := by
    simp only [mark_done]
    by_cases h : (t.filter fun r => r.id == itemId && r.check_create == staExp).length = 0
    · rw [if_pos (by simpa using h)]
      simp only [Option.isSome_some, true_iff]
      intro r hr hc
      have : r ∈ t.filter fun r => r.id == itemId && r.check_create == staExp :=
        List.mem_filter.mpr ⟨hr, (hbeq r).mpr hc⟩
      rw [List.length_eq_zero.mp h] at this
      cases this
    · rw [if_neg (by simpa using h)]
      simp only [Option.isSome_none, Bool.false_eq_true, false_iff]
      intro hall
      apply h
      rw [List.length_eq_zero]
      rw [List.filter_eq_nil_iff]
      intro r hr
      simp only [Bool.not_eq_true]
      cases hb : (r.id == itemId && r.check_create == staExp) with
      | false => rfl
      | true => exact absurd ((hbeq r).mp hb) (hall r hr)
  refine ⟨hiff, ?_, ?_⟩
  · intro hs
    have hall := hiff.mp hs
    simp only [mark_done]
    apply updateWhere_eq_self
    intro r hr
    cases hb : (r.id == itemId && r.check_create == staExp) with
    | false => rfl
    | true => exact absurd ((hbeq r).mp hb) (hall r hr)
  · intro pr h
    constructor
    · intro hc
      rcases updateWhere_zip_cases _ _ t pr h with ⟨_, h2⟩ | ⟨hp, _⟩
      · rw [h2]; exact ⟨rfl, rfl, rfl⟩
      · exact absurd hp (by simp [(hbeq pr.1).mpr hc])
    · intro hc
      rcases updateWhere_zip_cases _ _ t pr h with ⟨hp, _⟩ | ⟨_, h2⟩
      · exact absurd ((hbeq pr.1).mp hp) hc
      · exact h2

/-- Witness for C9: on a one-row store at the expected stage, the matched row
is advanced with `last_error` cleared. -/
theorem mark_done_conditional_witness :
    (setStage 4 none "T" rowA).check_create = 4 ∧
    (setStage 4 none "T" rowA).last_error = none ∧
    (setStage 4 none "T" rowA).updated_at = some "T" :=
  ((mark_done_conditional [rowA] 1 3 4 "T").2.2
    (rowA, setStage 4 none "T" rowA) (by decide)).1 (by decide)

/-- C2: the stage guard succeeds exactly when its bounded scan (top 50 ids
descending among rows at the given stage) finds exactly one row — equivalently
exactly one row of the store sits at the stage, since `min 50 n = 1 ↔ n = 1`;
on failure the raised error names the scanned ids; and the guard leaves the
store untouched (it only issues a SELECT). -/
theorem guard_unique_stage_spec (t : Table) (stage : Int) :
    (guardScanIds t stage).length =
      min 50 (t.filter fun r => r.check_create == stage).length ∧
    ((guard_unique_stage t stage).1 = .ok () ↔
      (t.filter fun r => r.check_create == stage).length = 1) ∧
    (∀ g, (guard_unique_stage t stage).1 = .error g →
      g.stage = stage ∧ g.ids = guardScanIds t stage) ∧
    (guard_unique_stage t stage).2 = t := by
  have hlen : (guardScanIds t stage).length =
      min 50 (t.filter fun r => r.check_create == stage).length := by
    simp [guardScanIds, length_sortDesc]
  refine ⟨hlen, ?_, ?_, ?_⟩
  · by_cases h : (guardScanIds t stage).length = 1
    · rw [show (guard_unique_stage t stage).1 = .ok () by
        simp [guard_unique_stage, h]]
      simp only [true_iff]
      omega
    · have hne : (guard_unique_stage t stage).1 = .error ⟨stage, guardScanIds t stage⟩ := by
        simp [guard_unique_stage, h]
      rw [hne]
      simp only [reduceCtorEq, false_iff]
      omega
  · intro g hg
    by_cases h : (guardScanIds t stage).length = 1
    · rw [show (guard_unique_stage t stage).1 = .ok () by
        simp [guard_unique_stage, h]] at hg
      cases hg
    · have hne : (guard_unique_stage t stage).1 = .error ⟨stage, guardScanIds t stage⟩ := by
        simp [guard_unique_stage, h]
      rw [hne] at hg
      cases hg
      exact ⟨rfl, rfl⟩
  · by_cases h : (guardScanIds t stage).length = 1 <;>
      simp [guard_unique_stage, h]

/-- Witness for C2: two rows at stage 2 make the guard raise, naming both
ids; the error branch hypothesis is discharged at this concrete store. -/
theorem guard_unique_stage_spec_witness :
    (⟨2, [2, 1]⟩ : GuardError).stage = 2 ∧
    (⟨2, [2, 1]⟩ : GuardError).ids = guardScanIds [rowC, ⟨1, 2, none, none, none, "2026-01-01", 0, []⟩] 2 :=
  (guard_unique_stage_spec [rowC, ⟨1, 2, none, none, none, "2026-01-01", 0, []⟩] 2).2.2.1
    ⟨2, [2, 1]⟩ (by rfl)

theorem addColIfMissing_cols (s : Schema) (c d : String) :
    d ∈ (addColIfMissing s c).cols ↔ d ∈ s.cols ∨ d = c := by
  by_cases h : c ∈ s.cols
  · simp only [addColIfMissing, if_pos h]
    constructor
    · exact Or.inl
    · rintro (hd | rfl)
      · exact hd
      · exact h
  · simp [addColIfMissing, if_neg h]

theorem addColIfMissing_indexes (s : Schema) (c : String) :
    (addColIfMissing s c).indexes = s.indexes := by
  by_cases h : c ∈ s.cols <;> simp [addColIfMissing, h]

theorem foldl_addCol_cols (cs : List String) :
    ∀ (s : Schema) (d : String),
      d ∈ (cs.foldl addColIfMissing s).cols ↔ d ∈ s.cols ∨ d ∈ cs := by
  induction cs with
  | nil => intro s d; simp
  | cons c cs ih =>
      intro s d
      simp only [List.foldl_cons, ih, addColIfMissing_cols, List.mem_cons]
      tauto

theorem foldl_addCol_indexes (cs : List String) :
    ∀ s : Schema, (cs.foldl addColIfMissing s).indexes = s.indexes := by
  induction cs with
  | nil => intro s; rfl
  | cons c cs ih => intro s; rw [List.foldl_cons, ih, addColIfMissing_indexes]

theorem foldl_addCol_stable (cs : List String) :
    ∀ s : Schema, (∀ c ∈ cs, c ∈ s.cols) → cs.foldl addColIfMissing s = s := by
  induction cs with
  | nil => intro s _; rfl
  | cons c cs ih =>
      intro s h
      rw [List.foldl_cons, show addColIfMissing s c = s from
        if_pos (h c (List.mem_cons_self c cs)),
        ih s (fun x hx => h x (List.mem_cons_of_mem _ hx))]

theorem addIndexIfMissing_mem (s : Schema) (n d : String) :
    d ∈ (addIndexIfMissing s n).indexes ↔ d ∈ s.indexes ∨ d = n := by
  by_cases h : n ∈ s.indexes
  · simp only [addIndexIfMissing, if_pos h]
    constructor
    · exact Or.inl
    · rintro (hd | rfl)
      · exact hd
      · exact h
  · simp [addIndexIfMissing, if_neg h]

theorem addIndexIfMissing_cols (s : Schema) (n : String) :
    (addIndexIfMissing s n).cols = s.cols := by
  by_cases h : n ∈ s.indexes <;> simp [addIndexIfMissing, h]

/-- C6: schema evolution is idempotent and non-destructive.  One run of
`ensure_columns` yields exactly the starting columns plus the missing
queue-control columns, and the pick index when enabled; a second run returns
the same schema unchanged (and, being a total function, raises nothing);
nothing is ever dropped. -/
theorem ensure_columns_idempotent (enableIdx : Bool) (idxName : String)
    (s : Schema) :
    (∀ c, c ∈ (ensure_columns enableIdx idxName s).cols ↔
      c ∈ s.cols ∨ c ∈ requiredColumns) ∧
    (∀ i, i ∈ (ensure_columns enableIdx idxName s).indexes ↔
      i ∈ s.indexes ∨ (enableIdx = true ∧ i = idxName)) ∧
    (∀ c ∈ s.cols, c ∈ (ensure_columns enableIdx idxName s).cols) ∧
    (∀ i ∈ s.indexes, i ∈ (ensure_columns enableIdx idxName s).indexes) ∧
    ensure_columns enableIdx idxName (ensure_columns enableIdx idxName s) =
      ensure_columns enableIdx idxName s := by
  have hcols : ∀ c, c ∈ (ensure_columns enableIdx idxName s).cols ↔
      c ∈ s.cols ∨ c ∈ requiredColumns := by
    intro c
    cases enableIdx with
    | false => simp [ensure_columns, foldl_addCol_cols]
    | true => simp [ensure_columns, addIndexIfMissing_cols, foldl_addCol_cols]
  have hidx : ∀ i, i ∈ (ensure_columns enableIdx idxName s).indexes ↔
      i ∈ s.indexes ∨ (enableIdx = true ∧ i = idxName) := by
    intro i
    cases enableIdx with
    | false => simp [ensure_columns, foldl_addCol_indexes]
    | true =>
        simp [ensure_columns, addIndexIfMissing_mem, foldl_addCol_indexes]
  refine ⟨hcols, hidx, fun c hc => (hcols c).mpr (Or.inl hc),
    fun i hi => (hidx i).mpr (Or.inl hi), ?_⟩
  have hstable : requiredColumns.foldl addColIfMissing
      (ensure_columns enableIdx idxName s) = ensure_columns enableIdx idxName s :=
    foldl_addCol_stable requiredColumns _
      (fun c hc => (hcols c).mpr (Or.inr hc))
  cases enableIdx with
  | false => simpa [ensure_columns] using hstable
  | true =>
      have hmem : idxName ∈ (ensure_columns true idxName s).indexes :=
        (hidx idxName).mpr (Or.inr ⟨rfl, rfl⟩)
      calc ensure_columns true idxName (ensure_columns true idxName s)
          = addIndexIfMissing (requiredColumns.foldl addColIfMissing
              (ensure_columns true idxName s)) idxName := by
            simp [ensure_columns]
        _ = addIndexIfMissing (ensure_columns true idxName s) idxName := by
            rw [hstable]
        _ = ensure_columns true idxName s := by
            simp [addIndexIfMissing, hmem]

/-- Witness for C6: starting from a schema that already has `id` and the pick
index, `check_create` is among the ensured columns and `id` survives. -/
theorem ensure_columns_idempotent_witness :
    ("check_create" ∈ (ensure_columns true "idx_items_pick_queue"
      ⟨["id"], ["idx_items_pick_queue"]⟩).cols) ∧
    ("id" ∈ (ensure_columns true "idx_items_pick_queue"
      ⟨["id"], ["idx_items_pick_queue"]⟩).cols) := by
  have h := ensure_columns_idempotent true "idx_items_pick_queue"
    ⟨["id"], ["idx_items_pick_queue"]⟩
  exact ⟨(h.1 "check_create").mpr (Or.inr (by decide)),
    h.2.2.1 "id" (by decide)⟩

theorem runRetry_all_locked (op : Nat → AttemptResult) (sleepSec : ℚ)
    (finalMsg : String) :
    ∀ (fuel : Nat) (tr : RetryTrace),
      (∀ i, tr.attempts ≤ i → i < tr.attempts + fuel →
        ∃ m, op i = .opErr m ∧ isLockedMsg m = true) →
      runRetry op sleepSec finalMsg fuel tr =
        .contentionExceeded finalMsg
          ⟨tr.attempts + fuel, tr.sleeps ++ List.replicate fuel sleepSec⟩ := by
  intro fuel
  induction fuel with
  | zero => intro tr _; simp [runRetry]
  | succ n ih =>
      intro tr h
      obtain ⟨m, hm, hl⟩ := h tr.attempts le_rfl (by omega)
      have step : runRetry op sleepSec finalMsg (n + 1) tr =
          runRetry op sleepSec finalMsg n
            ⟨tr.attempts + 1, tr.sleeps ++ [sleepSec]⟩ := by
        simp [runRetry, hm, hl]
      have harg : ∀ i, tr.attempts + 1 ≤ i → i < tr.attempts + 1 + n →
          ∃ m, op i = .opErr m ∧ isLockedMsg m = true :=
        fun i h1 h2 => h i (by omega) (by omega)
      rw [step, ih ⟨tr.attempts + 1, tr.sleeps ++ [sleepSec]⟩ harg]
      simp only [RetryOutcome.contentionExceeded.injEq, RetryTrace.mk.injEq,
        List.append_assoc, List.replicate_succ, List.singleton_append, true_and]
      exact ⟨by omega, trivial⟩

theorem runRetry_reraise_first (op : Nat → AttemptResult) (sleepSec : ℚ)
    (finalMsg m : String) (fuel : Nat)
    (hm : op 0 = .opErr m) (hl : isLockedMsg m = false) :
    runRetry op sleepSec finalMsg (fuel + 1) ⟨0, []⟩ = .reraised m ⟨1, []⟩ := by
  simp [runRetry, hm, hl]

/-- C3: when the transaction body reports "database is locked" on every
attempt, both retry-wrapped mutations perform exactly `LOCK_RETRY_MAX`
attempts, sleep the fixed `LOCK_RETRY_SLEEP_SEC` after each locked failure,
and end by raising the "retry exceeded" contention error rather than
returning; an `OperationalError` whose message does not mention "locked" is
re-raised after the first attempt without consuming the retry budget. -/
theorem update_stage_retry_bound (op opOther : Nat → AttemptResult)
    (m : String)
    (hAll : ∀ i < LOCK_RETRY_MAX, ∃ msg, op i = .opErr msg ∧
      isLockedMsg msg = true)
    (hOther : opOther 0 = .opErr m) (hNotLocked : isLockedMsg m = false) :
    update_stage_success_retry op =
      .contentionExceeded "database is locked (retry exceeded) on update_success"
        ⟨LOCK_RETRY_MAX, List.replicate LOCK_RETRY_MAX LOCK_RETRY_SLEEP_SEC⟩ ∧
    update_stage_error_retry op =
      .contentionExceeded "database is locked (retry exceeded) on update_error"
        ⟨LOCK_RETRY_MAX, List.replicate LOCK_RETRY_MAX LOCK_RETRY_SLEEP_SEC⟩ ∧
    update_stage_success_retry opOther = .reraised m ⟨1, []⟩ ∧
    update_stage_error_retry opOther = .reraised m ⟨1, []⟩ := by
  have hgen : ∀ i, (0 : Nat) ≤ i → i < 0 + LOCK_RETRY_MAX →
      ∃ msg, op i = .opErr msg ∧ isLockedMsg msg = true := by
    intro i _ h2
    exact hAll i (by omega)
  refine ⟨?_, ?_, ?_, ?_⟩
  · simpa using runRetry_all_locked op LOCK_RETRY_SLEEP_SEC
      "database is locked (retry exceeded) on update_success" LOCK_RETRY_MAX
      ⟨0, []⟩ hgen
  · simpa using runRetry_all_locked op LOCK_RETRY_SLEEP_SEC
      "database is locked (retry exceeded) on update_error" LOCK_RETRY_MAX
      ⟨0, []⟩ hgen
  · exact runRetry_reraise_first opOther LOCK_RETRY_SLEEP_SEC _ m 24 hOther hNotLocked
  · exact runRetry_reraise_first opOther LOCK_RETRY_SLEEP_SEC _ m 24 hOther hNotLocked

/-- Witness for C3: a body that is always locked exhausts all 25 attempts of
`update_stage_success`; a body raising a non-locked `OperationalError`
("disk I/O error") is re-raised after one attempt. -/
theorem update_stage_retry_bound_witness :
    update_stage_success_retry (fun _ => .opErr "database is locked") =
      .contentionExceeded "database is locked (retry exceeded) on update_success"
        ⟨LOCK_RETRY_MAX, List.replicate LOCK_RETRY_MAX LOCK_RETRY_SLEEP_SEC⟩ ∧
    update_stage_success_retry (fun _ => .opErr "disk I/O error") =
      .reraised "disk I/O error" ⟨1, []⟩ := by
  have h := update_stage_retry_bound (fun _ => .opErr "database is locked")
    (fun _ => .opErr "disk I/O error") "disk I/O error"
    (fun i _ => ⟨"database is locked", rfl, by decide⟩) rfl (by decide)
  exact ⟨h.1, h.2.2.1⟩

/-- C5: whenever the stage-02 try-block fails — guard failure, pre-condition
failure, handler exit non-zero / timeout, post-condition failure, or the
handler reporting success while `folder_name` stayed empty — the driver does
not propagate the exception: it writes `check_create` back to the stage entry
value (or to 0 when `RESET_TO_ZERO_ON_FAIL_02` is configured), records a
`last_error` built from the failure's type and message, and returns the
failure code.  The last conjunct shows the empty-payload case is itself such
a failure. -/
theorem process_one_item_stage02_failure (reset02 : Bool) (sta02 end02 : Int)
    (now : String) (itemId : Int) (handler : HandlerRun) (t t2 : Table)
    (e : Exc)
    (hfail : stage02_attempt sta02 end02 itemId handler t = .err e t2) :
    (stage02_block reset02 sta02 end02 now itemId handler t =
      .failed (update_item t2 itemId (if reset02 then 0 else sta02)
        (some ("02 failed: " ++ excText e)) now)) ∧
    (∀ pr ∈ t2.zip (update_item t2 itemId (if reset02 then 0 else sta02)
        (some ("02 failed: " ++ excText e)) now),
      pr.1.id = itemId →
        pr.2.check_create = (if reset02 then 0 else sta02) ∧
        pr.2.last_error = some ("02 failed: " ++ excText e) ∧
        pr.2.updated_at = some now) ∧
    (∀ (t3 : Table) (f0 folder : String),
      (guard_unique_stage t sta02).1 = .ok () →
      require_stage t itemId sta02 "before 02" = .ok f0 →
      handler t = (t3, none) →
      require_stage t3 itemId end02 "after 02" = .ok folder →
      folder.trim = "" →
      stage02_attempt sta02 end02 itemId handler t =
        .err ⟨"RuntimeError", "after 02: folder_name is empty"⟩ t3) := by
  refine ⟨?_, ?_, ?_⟩
  · simp [stage02_block, hfail]
  · intro pr h hid
    rcases updateWhere_zip_cases _ _ t2 pr h with ⟨_, h2⟩ | ⟨hp, _⟩
    · rw [h2]; exact ⟨rfl, rfl, rfl⟩
    · exact absurd hp (by simp [hid])
  · intro t3 f0 folder hguard hpre hrun hpost hempty
    simp [stage02_attempt, hguard, hpre, hrun, hpost, hempty]

/-- Witness for C5: a one-row store at stage 1 whose handler exits non-zero;
the driver returns the failure code with the row kept at stage 1 and the
failure recorded. -/
theorem process_one_item_stage02_failure_witness :
    stage02_block false 1 2 "T" 1 failingHandler [rowB] =
      .failed (update_item [rowB] 1 (if false then 0 else 1)
        (some ("02 failed: " ++
          excText ⟨"RuntimeError", "02_データ取得.py failed (exit=1)"⟩)) "T") :=
  (process_one_item_stage02_failure false 1 2 "T" 1 failingHandler [rowB]
    [rowB] ⟨"RuntimeError", "02_データ取得.py failed (exit=1)"⟩ (by rfl)).1

/-- C4: each driver iteration first looks for in-progress work — among rows
whose stage is one of the configured handler entry values it picks the single
candidate ordered by pipeline stage position ascending, then id descending —
and only when that query returns nothing does it attempt the atomic claim of
a stage-0 row. -/
theorem driver_selection_policy (staList : List Int) (sta02 : Int)
    (now : String) (tc : Nat) (t : Table) :
    (∀ a b : Row, betterInprogress staList a b = true ↔
      (stagePos staList a.check_create < stagePos staList b.check_create ∨
        (stagePos staList a.check_create = stagePos staList b.check_create ∧
          b.id < a.id))) ∧
    (pick_inprogress_job staList t = none ↔
      ∀ r ∈ t, staList.contains r.check_create = false) ∧
    (∀ r, pick_inprogress_job staList t = some r →
      r ∈ t ∧ staList.contains r.check_create = true ∧
      ∀ r2 ∈ t, staList.contains r2.check_create = true →
        betterInprogress staList r2 r = false) ∧
    (∀ r, pick_inprogress_job staList t = some r →
      driver_select staList sta02 now tc t = (some r, t)) ∧
    (pick_inprogress_job staList t = none →
      driver_select staList sta02 now tc t =
        ((lock_new_job_atomic sta02 now tc t t).picked,
         (lock_new_job_atomic sta02 now tc t t).table)) := by
  refine ⟨?_, ?_, ?_, ?_, ?_⟩
  · intro a b
    simp [betterInprogress, keyBetter, inprogressKey, Prod.Lex.lt_iff]
  · rw [pick_inprogress_job, selectTop_none_iff, List.filter_eq_nil_iff]
    constructor
    · intro h r hr
      cases hb : staList.contains r.check_create with
      | false => rfl
      | true => exact absurd hb (by simpa using h r hr)
    · intro h r hr
      simpa using h r hr
  · intro r hpick
    have hmem := selectTop_mem _ _ r hpick
    have hflt := List.mem_filter.mp hmem
    refine ⟨hflt.1, hflt.2, ?_⟩
    intro r2 hr2 hc2
    exact selectTop_optimal (betterInprogress staList)
      (keyBetter_trans (inprogressKey staList))
      (keyBetter_neg (inprogressKey staList))
      (keyBetter_irrefl (inprogressKey staList)) _ r hpick r2
      (List.mem_filter.mpr ⟨hr2, hc2⟩)
  · intro r hpick
    simp [driver_select, hpick]
  · intro hpick
    simp [driver_select, hpick]

/-- Witness for C4: with one row at stage 2 and one at stage 1 (both
in-progress), the driver resumes the stage-1 row and the store is untouched;
the claim of new work is not attempted. -/
theorem driver_selection_policy_witness :
    driver_select [1, 2, 3, 4, 5] 1 "T" 0 [rowC, rowB] =
      (some rowB, [rowC, rowB]) :=
  (driver_selection_policy [1, 2, 3, 4, 5] 1 "T" 0 [rowC, rowB]).2.2.2.1
    rowB (by rfl)

theorem lock_new_job_atomic_table_cases (sta02 : Int) (now : String)
    (tc : Nat) (tSel tUpd : Table) :
    (lock_new_job_atomic sta02 now tc tSel tUpd).table = tUpd ∨
    ∃ tid, (lock_new_job_atomic sta02 now tc tSel tUpd).table =
      applyClaimUpdate sta02 now tid tUpd := by
  unfold lock_new_job_atomic
  cases hsel : selectTop betterNew (tSel.filter fun r => r.check_create == 0) with
  | none => exact Or.inl rfl
  | some row =>
      by_cases hc :
        tc + (tUpd.filter fun r => r.id == row.id && r.check_create == 0).length = 0
      · left
        simp [hc]
      · right
        exact ⟨row.id, by simp [hc]⟩

theorem updateWhere_frame_by_id (p : Row → Bool) (cc : Int) (le : Option String)
    (now : String) (t : Table) (target : Int)
    (hp : ∀ r : Row, r.id ≠ target → p r = false) :
    ∀ pr ∈ t.zip (updateWhere p (setStage cc le now) t),
      pr.2.id = pr.1.id ∧ pr.2.folder_name = pr.1.folder_name ∧
      pr.2.post_date = pr.1.post_date ∧
      pr.2.comments_count = pr.1.comments_count ∧
      pr.2.extra = pr.1.extra ∧ (pr.1.id ≠ target → pr.2 = pr.1) := by
  intro pr h
  have hf := updateWhere_setStage_frame p cc le now t pr h
  exact ⟨hf.1, hf.2.1, hf.2.2.1, hf.2.2.2.1, hf.2.2.2.2.1,
    fun hid => hf.2.2.2.2.2 (hp pr.1 hid)⟩

/-- C7: every core mutation of a row's stage — the driver's `update_item`,
`mark_done`, `mark_fail`, and the atomic claim's committed UPDATE — stamps
`updated_at` with the transaction's timestamp on every row whose
`check_create` it changed. -/
theorem stage_mutations_stamp_updated_at (t tSel : Table)
    (itemId cc staExp endVal staV sta02 : Int) (le : Option String)
    (err now : String) (tc : Nat) :
    (∀ pr ∈ t.zip (update_item t itemId cc le now),
      pr.2.check_create ≠ pr.1.check_create → pr.2.updated_at = some now) ∧
    (∀ pr ∈ t.zip (mark_done t itemId staExp endVal now).1,
      pr.2.check_create ≠ pr.1.check_create → pr.2.updated_at = some now) ∧
    (∀ pr ∈ t.zip (mark_fail t itemId staV err now),
      pr.2.check_create ≠ pr.1.check_create → pr.2.updated_at = some now) ∧
    (∀ pr ∈ t.zip (lock_new_job_atomic sta02 now tc tSel t).table,
      pr.2.check_create ≠ pr.1.check_create → pr.2.updated_at = some now) := by
  refine ⟨updateWhere_setStage_stamps _ _ _ _ t,
    updateWhere_setStage_stamps _ _ _ _ t,
    updateWhere_setStage_stamps _ _ _ _ t, ?_⟩
  intro pr h hch
  rcases lock_new_job_atomic_table_cases sta02 now tc tSel t with hcase | ⟨tid, hcase⟩
  · rw [hcase] at h
    exact absurd (congrArg Row.check_create (zip_self_eq t pr h)) hch
  · rw [hcase] at h
    exact updateWhere_setStage_stamps _ sta02 none now t pr h hch

/-- Witness for C7: `update_item` advancing the fixture row from stage 3 to
stage 5 stamps the timestamp. -/
theorem stage_mutations_stamp_updated_at_witness :
    (setStage 5 none "T" rowA).updated_at = some "T" :=
  (stage_mutations_stamp_updated_at [rowA] [] 1 5 0 0 0 1 none "e" "T" 0).1
    (rowA, setStage 5 none "T" rowA) (by decide) (by decide)

/-- C8: every stage transition the core performs (`update_item`, `mark_done`,
`mark_fail`, the atomic claim) preserves the store's row count, each row's
identity and business columns (`folder_name`, `post_date`, `comments_count`,
and the opaque extras), and leaves every row other than the targeted one
byte-for-byte unchanged; the claim's table is either untouched (rollback) or
the conditional update of a single id. -/
theorem stage_mutations_frame (t tSel : Table)
    (itemId cc staExp endVal staV sta02 : Int) (le : Option String)
    (err now : String) (tc : Nat) :
    ((update_item t itemId cc le now).length = t.length ∧
     ∀ pr ∈ t.zip (update_item t itemId cc le now),
       pr.2.id = pr.1.id ∧ pr.2.folder_name = pr.1.folder_name ∧
       pr.2.post_date = pr.1.post_date ∧
       pr.2.comments_count = pr.1.comments_count ∧
       pr.2.extra = pr.1.extra ∧ (pr.1.id ≠ itemId → pr.2 = pr.1)) ∧
    ((mark_done t itemId staExp endVal now).1.length = t.length ∧
     ∀ pr ∈ t.zip (mark_done t itemId staExp endVal now).1,
       pr.2.id = pr.1.id ∧ pr.2.folder_name = pr.1.folder_name ∧
       pr.2.post_date = pr.1.post_date ∧
       pr.2.comments_count = pr.1.comments_count ∧
       pr.2.extra = pr.1.extra ∧ (pr.1.id ≠ itemId → pr.2 = pr.1)) ∧
    ((mark_fail t itemId staV err now).length = t.length ∧
     ∀ pr ∈ t.zip (mark_fail t itemId staV err now),
       pr.2.id = pr.1.id ∧ pr.2.folder_name = pr.1.folder_name ∧
       pr.2.post_date = pr.1.post_date ∧
       pr.2.comments_count = pr.1.comments_count ∧
       pr.2.extra = pr.1.extra ∧ (pr.1.id ≠ itemId → pr.2 = pr.1)) ∧
    ((lock_new_job_atomic sta02 now tc tSel t).table = t ∨
      ∃ tid, (lock_new_job_atomic sta02 now tc tSel t).table =
        applyClaimUpdate sta02 now tid t) ∧
    (∀ tid : Int, ∀ pr ∈ t.zip (applyClaimUpdate sta02 now tid t),
      pr.2.id = pr.1.id ∧ pr.2.folder_name = pr.1.folder_name ∧
      pr.2.post_date = pr.1.post_date ∧
      pr.2.comments_count = pr.1.comments_count ∧
      pr.2.extra = pr.1.extra ∧ (pr.1.id ≠ tid → pr.2 = pr.1)) := by
  refine ⟨⟨updateWhere_length _ _ t, ?_⟩, ⟨updateWhere_length _ _ t, ?_⟩,
    ⟨updateWhere_length _ _ t, ?_⟩,
    lock_new_job_atomic_table_cases sta02 now tc tSel t, ?_⟩
  · exact updateWhere_frame_by_id _ cc le now t itemId
      (fun r hid => by simp [hid])
  · exact updateWhere_frame_by_id _ endVal none now t itemId
      (fun r hid => by simp [hid])
  · exact updateWhere_frame_by_id _ staV (some (pyTruncate err 2000)) now t itemId
      (fun r hid => by simp [hid])
  · intro tid
    exact updateWhere_frame_by_id _ sta02 none now t tid
      (fun r hid => by simp [hid])

/-- Witness for C8: `mark_fail` on the fixture row changes neither its id nor
its business columns. -/
theorem stage_mutations_frame_witness :
    (setStage 9 (some (pyTruncate "e" 2000)) "T" rowA).id = rowA.id ∧
    (setStage 9 (some (pyTruncate "e" 2000)) "T" rowA).folder_name =
      rowA.folder_name :=
  have h := (stage_mutations_frame [rowA] [] 1 0 0 0 9 1 none "e" "T" 0).2.2.1.2
    (rowA, setStage 9 (some (pyTruncate "e" 2000)) "T" rowA) (by decide)
  ⟨h.1, h.2.1⟩

/-- C1 (evaluation at the failing input): the claim protocol's defensive
check compares `con.total_changes` — the connection-cumulative change counter
— against zero instead of the UPDATE's own rowcount.  With one prior change
on the connection (`tc = 1`), a stage-0 row seen by the SELECT but already
claimed by a concurrent process when the UPDATE runs (`check_create = 1` in
`tUpd`) makes the conditional update affect zero rows, yet the function
commits and returns the re-read row instead of rolling back and returning
"no work"; only a fresh connection (`tc = 0`) takes the rollback path the
spec requires. -/
theorem lock_new_job_atomic_total_changes_bug :
    (([rowUpd] : Table).filter
        (fun r => r.id == (1 : Int) && r.check_create == 0)).length = 0 ∧
    (lock_new_job_atomic 1 "T" 1 [rowSel] [rowUpd]).picked = some rowUpd ∧
    (lock_new_job_atomic 1 "T" 0 [rowSel] [rowUpd]).picked = none :=
  ⟨rfl, rfl, rfl⟩
